import Mathlib

/-!
Shallow embedding of the transaction participant
(`src/yb/tablet/transaction_participant.cc`): the per-shard bookkeeper that
tracks running transactions, coalesces status queries into single RPCs,
caches and extrapolates the last known transaction status, and reports
apply outcomes to the status tablet.

Pure functions of the source become Lean functions; the mutex-guarded
mutable state of a `RunningTransaction` entry and of the participant table
becomes explicit state passing: each operation maps the pre-state to a
post-state together with an effect record describing outbound RPCs,
immediate callbacks and log events.  Fatal paths
(`FATAL_INVALID_ENUM_VALUE`) are modelled with `Except`.
-/

namespace YbTablet

/-- `HybridTime` from the source: an ordered scalar with distinguished
values `kMin` (below every real time), `kMax` (above every real time) and
`kInvalidHybridTime` (the sentinel for "not set", numerically above `kMax`
in the `uint64` representation).  Real times are modelled by `ht n`. -/
inductive HybridTime where
  | min : HybridTime
  | ht : Nat → HybridTime
  | max : HybridTime
  | invalid : HybridTime
deriving DecidableEq

/-- The `operator<=` of `HybridTime`: comparison of the underlying
`uint64` values, with `min < ht n < max < invalid`. -/
def HybridTime.ble : HybridTime → HybridTime → Bool
  | .min, _ => true
  | _, .min => false
  | .ht a, .ht b => decide (a ≤ b)
  | .ht _, _ => true
  | _, .ht _ => false
  | .max, _ => true
  | _, .max => false
  | .invalid, .invalid => true

/-- The `operator<` of `HybridTime`, derived from the total order. -/
def HybridTime.blt (a b : HybridTime) : Bool :=
  !(HybridTime.ble b a)

/-- The transaction status enum values used by the participant
(`tserver::TransactionStatus`). -/
inductive TransactionStatus where
  | PENDING : TransactionStatus
  | COMMITTED : TransactionStatus
  | ABORTED : TransactionStatus
  | APPLIED_IN_ONE_OF_INVOLVED_TABLETS : TransactionStatus
deriving DecidableEq

/-- `TransactionStatusResult`: the `{status, status_time}` pair handed to
status and abort callbacks. -/
structure TransactionStatusResult where
  status : TransactionStatus
  status_time : HybridTime

/-- A transaction id: a fixed-width 128-bit identifier, modelled as its
16-byte serialisation. -/
structure TransactionId where
  bytes : List Nat
deriving DecidableEq

/-- Modelled from the spec: `DecodeTransactionId` is repository code not
present under `src/`; per the spec a transaction id is "a fixed-width
128-bit opaque identifier" with "byte-level serialisation", and decoding
returns a decode error on a malformed id.  A wire id is well formed iff it
is exactly 16 bytes, each below 256. -/
def DecodeTransactionId (bytes : List Nat) : Except Unit TransactionId :=
  if bytes.length = 16 && bytes.all (fun b => b < 256) then
    .ok ⟨bytes⟩
  else
    .error ()

/-- Modelled from the spec: the `IsolationLevel` enum is repository code
not present under `src/`; the participant file copies the wire value
verbatim, so the wire field is modelled as a raw number, and the known
enum values are `NON_TRANSACTIONAL = 0`, `SNAPSHOT_ISOLATION = 1`,
`SERIALIZABLE_ISOLATION = 2`. -/
def knownIsolationLevel (n : Nat) : Bool :=
  n ≤ 2

/-- The wire message `TransactionMetadataPB`. -/
structure TransactionMetadataPB where
  transaction_id : List Nat
  isolation : Nat
  status_tablet : String
  priority : Nat
  start_hybrid_time : HybridTime

/-- `TransactionMetadata`: id, isolation level, status tablet, priority
and start time of a transaction. -/
structure TransactionMetadata where
  transaction_id : TransactionId
  isolation : Nat
  status_tablet : String
  priority : Nat
  start_time : HybridTime
deriving DecidableEq

/-- `TransactionMetadata::FromPB`: decode the transaction id (propagating
its decode error) and copy the remaining four fields from the message.
The source performs no check of the isolation value. -/
def TransactionMetadata.FromPB (source : TransactionMetadataPB) :
    Except Unit TransactionMetadata :=
  match DecodeTransactionId source.transaction_id with
  | .error e => .error e
  | .ok id =>
    .ok { transaction_id := id,
          isolation := source.isolation,
          status_tablet := source.status_tablet,
          priority := source.priority,
          start_time := source.start_hybrid_time }

/-- `RunningTransaction::GetStatusAt`: extrapolate the cached status
`last_known_status` observed at `last_known_status_hybrid_time` to the
queried `time`.  `ABORTED` is terminal; `COMMITTED` degrades to `PENDING`
before the commit time; `PENDING` extends only backwards; any other enum
value hits `FATAL_INVALID_ENUM_VALUE`, modelled as `Except.error`. -/
def GetStatusAt (time : HybridTime) (last_known_status_hybrid_time : HybridTime)
    (last_known_status : TransactionStatus) :
    Except Unit (Option TransactionStatus) :=
  match last_known_status with
  | .ABORTED => .ok (some .ABORTED)
  | .COMMITTED =>
    .ok (some (if HybridTime.blt time last_known_status_hybrid_time then
                 .PENDING
               else
                 .COMMITTED))
  | .PENDING =>
    .ok (if HybridTime.ble time last_known_status_hybrid_time then
           some .PENDING
         else
           none)
  | _ => .error ()

/-- A queued status waiter: the stored callback (modelled by an opaque
identifier) together with its requested time. -/
structure StatusWaiter where
  callback : Nat
  time : HybridTime

/-- The mutable per-transaction entry `RunningTransaction`.  The RPC
handles are not part of the state: RPC issuance is reported in the effect
records of the operations below.  In the source `last_known_status_` has
no initializer; it is read only under the guard
`last_known_status_hybrid_time_ > kMin`, which holds only after a
response has stored both fields, so the initial value chosen here is
never observable. -/
structure RunningTransaction where
  metadata : TransactionMetadata
  local_commit_time : HybridTime
  last_known_status : TransactionStatus
  last_known_status_time : HybridTime
  status_waiters : List StatusWaiter
  abort_waiters : List Nat

/-- The constructor `RunningTransaction(metadata, rpcs)`:
`local_commit_time_` starts as `kInvalidHybridTime`,
`last_known_status_hybrid_time_` as `kMin`, both waiter queues empty. -/
def mkRunningTransaction (metadata : TransactionMetadata) : RunningTransaction :=
  { metadata := metadata,
    local_commit_time := .invalid,
    last_known_status := .PENDING,
    last_known_status_time := .min,
    status_waiters := [],
    abort_waiters := [] }

/-- The outbound `GetTransactionStatusRequestPB` built by
`RequestStatusAt`: the status tablet id and the transaction id, both from
the entry's metadata. -/
structure GetTransactionStatusRequestPB where
  tablet_id : String
  transaction_id : TransactionId

/-- Effect of one `RequestStatusAt` call on an entry: the updated entry,
the outbound RPC if one was started, and the immediate callback
invocation if the cache answered. -/
structure StatusRequestEffect where
  newEntry : RunningTransaction
  rpc : Option GetTransactionStatusRequestPB
  immediate : Option (Nat × TransactionStatusResult)

/-- The tail of `RequestStatusAt` after the cache failed to answer:
record the waiter, and start a `GetTransactionStatus` RPC only if the
queue was empty before the push. -/
def RunningTransaction.enqueueStatusWaiter (rt : RunningTransaction)
    (time : HybridTime) (callback : Nat) : StatusRequestEffect :=
  let was_empty := rt.status_waiters.isEmpty
  let rt1 := { rt with status_waiters := rt.status_waiters ++ [⟨callback, time⟩] }
  if was_empty then
    { newEntry := rt1,
      rpc := some { tablet_id := rt.metadata.status_tablet,
                    transaction_id := rt.metadata.transaction_id },
      immediate := none }
  else
    { newEntry := rt1, rpc := none, immediate := none }

/-- `RunningTransaction::RequestStatusAt`: if the cache holds information
(`last_known_status_hybrid_time_ > kMin`) and `GetStatusAt` yields a
definite answer, invoke the callback immediately with
`{status, last_known_status_hybrid_time}` and leave the entry unchanged;
otherwise enqueue the waiter and start an RPC only when the waiter queue
was empty. -/
def RunningTransaction.requestStatusAt (rt : RunningTransaction)
    (time : HybridTime) (callback : Nat) : Except Unit StatusRequestEffect :=
  if HybridTime.blt HybridTime.min rt.last_known_status_time then
    match GetStatusAt time rt.last_known_status_time rt.last_known_status with
    | .error e => .error e
    | .ok (some transaction_status) =>
      .ok { newEntry := rt,
            rpc := none,
            immediate := some (callback,
              { status := transaction_status,
                status_time := rt.last_known_status_time }) }
    | .ok none => .ok (rt.enqueueStatusWaiter time callback)
  else
    .ok (rt.enqueueStatusWaiter time callback)

/-- Run a sequence of `RequestStatusAt` calls (callback, requested time)
against one entry, counting the outbound RPCs issued. -/
def runRequests : RunningTransaction → List (Nat × HybridTime) →
    Except Unit (RunningTransaction × Nat)
  | rt, [] => .ok (rt, 0)
  | rt, (c, t) :: rest =>
    match rt.requestStatusAt t c with
    | .error e => .error e
    | .ok eff =>
      match runRequests eff.newEntry rest with
      | .error e => .error e
      | .ok (rtf, n) => .ok (rtf, (if eff.rpc.isSome then 1 else 0) + n)

/-- The `GetTransactionStatusResponsePB` wire message: a status and an
optional status hybrid time (absent only for `ABORTED`). -/
structure GetTransactionStatusResponsePB where
  status : TransactionStatus
  status_hybrid_time : Option HybridTime

/-- What a status waiter's callback receives when the RPC completes: a
definite `{status, time}` answer, a retryable `TryAgain` error, or the
RPC's own failure. -/
inductive WaiterReply where
  | result : TransactionStatusResult → WaiterReply
  | tryAgain : WaiterReply
  | rpcError : WaiterReply

/-- The cache-update step of `StatusReceived`: store
`{response.status, time}` only when
`last_known_status_hybrid_time <= time`. -/
def statusCacheUpdate (rt0 : RunningTransaction) (status : TransactionStatus)
    (time : HybridTime) : RunningTransaction :=
  if HybridTime.ble rt0.last_known_status_time time then
    { rt0 with last_known_status_time := time, last_known_status := status }
  else
    rt0

/-- The dispatch loop of `StatusReceived`: answer every swapped-out
waiter from the updated snapshot via `GetStatusAt`; a stale snapshot
yields the retryable `TryAgain`. -/
def dispatchStatusWaiters (rt1 : RunningTransaction)
    (waiters : List StatusWaiter) : Except Unit (List (Nat × WaiterReply)) :=
  waiters.mapM (fun w =>
    match GetStatusAt w.time rt1.last_known_status_time rt1.last_known_status with
    | .error e => .error e
    | .ok (some ts) =>
      .ok (w.callback, WaiterReply.result ⟨ts, rt1.last_known_status_time⟩)
    | .ok none => .ok (w.callback, WaiterReply.tryAgain))

/-- `RunningTransaction::StatusReceived`: swap out the waiters; on RPC
success take `time` as the response hybrid time (or `kMax` when absent),
apply `statusCacheUpdate`, and answer the waiters from the updated
snapshot; on RPC failure pass the failure to every waiter.
`FATAL_INVALID_ENUM_VALUE` inside `GetStatusAt` is modelled as
`Except.error`. -/
def RunningTransaction.statusReceived (rt : RunningTransaction) (rpc_ok : Bool)
    (resp : GetTransactionStatusResponsePB) :
    Except Unit (RunningTransaction × List (Nat × WaiterReply)) :=
  let waiters := rt.status_waiters
  let rt0 := { rt with status_waiters := [] }
  if rpc_ok then
    let rt1 := statusCacheUpdate rt0 resp.status
      (resp.status_hybrid_time.getD HybridTime.max)
    match dispatchStatusWaiters rt1 waiters with
    | .error e => .error e
    | .ok replies => .ok (rt1, replies)
  else
    .ok (rt0, waiters.map (fun w => (w.callback, WaiterReply.rpcError)))

/-- The `AbortTransactionResponsePB` wire message. -/
structure AbortTransactionResponsePB where
  status : TransactionStatus
  status_hybrid_time : Option HybridTime

/-- `RunningTransaction::MakeAbortResult`: propagate an RPC failure;
otherwise build `{response.status, response.status_hybrid_time}` with
`kInvalidHybridTime` when the time is absent. -/
def MakeAbortResult (rpc_ok : Bool) (resp : AbortTransactionResponsePB) :
    Except Unit TransactionStatusResult :=
  if rpc_ok then
    .ok { status := resp.status,
          status_time := resp.status_hybrid_time.getD HybridTime.invalid }
  else
    .error ()

/-- `RunningTransaction::AbortReceived`: swap out the abort waiters and
hand each of them the `MakeAbortResult` of this completion.  No other
field of the entry is touched. -/
def RunningTransaction.abortReceived (rt : RunningTransaction) (rpc_ok : Bool)
    (resp : AbortTransactionResponsePB) :
    RunningTransaction × List (Nat × Except Unit TransactionStatusResult) :=
  ({ rt with abort_waiters := [] },
   rt.abort_waiters.map (fun c => (c, MakeAbortResult rpc_ok resp)))

/-- Modelled from the spec: the concrete `docdb::ValueType` byte for
`kIntentPrefix` lives outside `src/`; the codec is
`encode(id) = intent_prefix_byte || transaction_id_type_byte || id_bytes`. -/
def kIntentPrefixByte : Nat := 240

/-- Modelled from the spec: the concrete `docdb::ValueType` byte for
`kTransactionId`, the second byte of the persisted key. -/
def kTransactionIdByte : Nat := 241

/-- `AppendTransactionKeyPrefix`: the persisted key of a transaction —
the intent prefix byte, the transaction id type byte, then the raw id
bytes. -/
def AppendTransactionKeyPrefix (id : TransactionId) : List Nat :=
  kIntentPrefixByte :: kTransactionIdByte :: id.bytes

/-- `transactions_.find(id)`: the hash lookup of the participant table,
keyed by `RunningTransaction::id()`. -/
def findTxn (ts : List RunningTransaction) (id : TransactionId) :
    Option RunningTransaction :=
  ts.find? (fun rt => rt.metadata.transaction_id == id)

/-- Number of table entries carrying the given transaction id. -/
def countTxn (ts : List RunningTransaction) (id : TransactionId) : Nat :=
  (ts.filter (fun rt => rt.metadata.transaction_id == id)).length

/-- Effect of one `Add` call: the updated table and write batch, whether
the decode failure path (`LOG(DFATAL)`) was taken, and whether the
`DCHECK_EQ` between an existing entry's metadata and the new metadata
held. -/
structure AddEffect where
  transactions : List RunningTransaction
  write_batch : List (List Nat × TransactionMetadataPB)
  decode_dfatal : Bool
  dcheck_ok : Bool

/-- The replica mode of an apply (`ProcessingMode`). -/
inductive ProcessingMode where
  | LEADER : ProcessingMode
  | FOLLOWER : ProcessingMode
deriving DecidableEq

/-- `TransactionApplyData` — the fields of the source struct that
`ProcessApply` reads (the applier and op id are consumed before the
participant state is touched). -/
structure TransactionApplyData where
  transaction_id : TransactionId
  commit_time : HybridTime
  mode : ProcessingMode
  status_tablet : String

/-- The outbound `UpdateTransactionRequestPB` of the leader apply path:
the status tablet id, and a state carrying the transaction id, the
`APPLIED_IN_ONE_OF_INVOLVED_TABLETS` status and this shard's tablet
id. -/
structure UpdateTransactionRequestPB where
  tablet_id : String
  state_transaction_id : TransactionId
  state_status : TransactionStatus
  state_tablets : List String

/-- Effect of one `ProcessApply` call: the updated table, the
`UpdateTransaction` RPC if one was sent, whether the unknown-transaction
warning was logged, and the returned status (always Ok). -/
structure ApplyEffect where
  transactions : List RunningTransaction
  update_rpc : Option UpdateTransactionRequestPB
  warned_unknown : Bool
  result_ok : Bool

/-- The in-place `transactions_.modify` of `ProcessApply`: set the local
commit time of the entry carrying the given id. -/
def applyCommit (ts : List RunningTransaction) (id : TransactionId)
    (time : HybridTime) : List RunningTransaction :=
  ts.map (fun rt =>
    if rt.metadata.transaction_id = id then
      { rt with local_commit_time := time }
    else
      rt)

/-- A value held by the persistent store: a parseable
`TransactionMetadataPB`, or bytes that fail to parse. -/
inductive StoredValue where
  | pb : TransactionMetadataPB → StoredValue
  | junk : StoredValue

/-- The store seek of `FindOrLoad`: `Seek(key)` followed by the
`iter->key() == key` check amounts to an exact-key lookup. -/
def dbLookup (db : List (List Nat × StoredValue)) (key : List Nat) :
    Option StoredValue :=
  (db.find? (fun kv => kv.1 == key)).map (fun kv => kv.2)

namespace TransactionParticipant

/-- `TransactionParticipant::Impl::Add`: decode the metadata (on failure
log `DFATAL` and change nothing); insert a fresh entry if the id is
absent, enqueuing the `{encode(id), metadata_wire}` record into the write
batch; if present, only `DCHECK_EQ` the existing metadata against the new
one. -/
def Add (ts : List RunningTransaction)
    (write_batch : List (List Nat × TransactionMetadataPB))
    (data : TransactionMetadataPB) : AddEffect :=
  match TransactionMetadata.FromPB data with
  | .error _ =>
    { transactions := ts, write_batch := write_batch,
      decode_dfatal := true, dcheck_ok := true }
  | .ok metadata =>
    match findTxn ts metadata.transaction_id with
    | some existing =>
      { transactions := ts, write_batch := write_batch,
        decode_dfatal := false,
        dcheck_ok := existing.metadata == metadata }
    | none =>
      { transactions := ts ++ [mkRunningTransaction metadata],
        write_batch := write_batch ++
          [( AppendTransactionKeyPrefix metadata.transaction_id, data)],
        decode_dfatal := false, dcheck_ok := true }

/-- `TransactionParticipant::Impl::LocalCommitTime`: a pure hash lookup
in the in-memory table — `kInvalidHybridTime` when the id is absent; no
store access of any kind. -/
def LocalCommitTime (ts : List RunningTransaction) (id : TransactionId) :
    HybridTime :=
  match findTxn ts id with
  | none => HybridTime.invalid
  | some rt => rt.local_commit_time

/-- `TransactionParticipant::Impl::ProcessApply` after the
`CHECK_OK(ApplyIntents)` (whose failure crashes before any state below is
touched): if the id is absent, log a warning and return Ok with nothing
else done; otherwise set the entry's local commit time in place and, in
`LEADER` mode only, send the `UpdateTransaction` RPC. -/
def ProcessApply (tablet_id : String) (ts : List RunningTransaction)
    (data : TransactionApplyData) : ApplyEffect :=
  match findTxn ts data.transaction_id with
  | none =>
    { transactions := ts, update_rpc := none,
      warned_unknown := true, result_ok := true }
  | some _ =>
    { transactions := applyCommit ts data.transaction_id data.commit_time,
      update_rpc :=
        if data.mode == ProcessingMode.LEADER then
          some { tablet_id := data.status_tablet,
                 state_transaction_id := data.transaction_id,
                 state_status := .APPLIED_IN_ONE_OF_INVOLVED_TABLETS,
                 state_tablets := [tablet_id] }
        else
          none,
      warned_unknown := false, result_ok := true }

/-- `TransactionParticipant::Impl::FindOrLoad`: hash lookup first; on a
miss seek the store at `encode(id)` and, when an exact key match parses
and decodes, insert the loaded entry; parse and decode failures log
`DFATAL` and leave the table unchanged. -/
def FindOrLoad (db : List (List Nat × StoredValue))
    (ts : List RunningTransaction) (id : TransactionId) :
    List RunningTransaction × Option RunningTransaction :=
  match findTxn ts id with
  | some rt => (ts, some rt)
  | none =>
    match dbLookup db ( AppendTransactionKeyPrefix id) with
    | none => (ts, none)
    | some .junk => (ts, none)
    | some (.pb msg) =>
      match TransactionMetadata.FromPB msg with
      | .error _ => (ts, none)
      | .ok metadata =>
        (ts ++ [mkRunningTransaction metadata],
         some (mkRunningTransaction metadata))

/-- `TransactionParticipant::Impl::Metadata`: `FindOrLoad`, then a copy
of the found entry's metadata (or absent). -/
def Metadata (db : List (List Nat × StoredValue))
    (ts : List RunningTransaction) (id : TransactionId) :
    List RunningTransaction × Option TransactionMetadata :=
  let res := FindOrLoad db ts id
  (res.1, res.2.map (fun rt => rt.metadata))

end TransactionParticipant

/-- A concrete transaction id for sample runs. -/
def idW : TransactionId := ⟨List.replicate 16 3⟩

/-- Concrete metadata for sample runs. -/
def mdW : TransactionMetadata :=
  { transaction_id := idW, isolation := 1, status_tablet := "status-tablet",
    priority := 7, start_time := .ht 5 }

/-- A freshly inserted entry for `mdW`. -/
def rtW : RunningTransaction := mkRunningTransaction mdW

/-- Three concurrent status requests against `rtW`. -/
def reqsW : List (Nat × HybridTime) := [(1, .ht 10), (2, .ht 10), (3, .ht 12)]

/-- The entry after the three requests of `reqsW`: all three waiters
queued, in arrival order. -/
def rtWf : RunningTransaction :=
  { rtW with status_waiters := [⟨1, .ht 10⟩, ⟨2, .ht 10⟩, ⟨3, .ht 12⟩] }

/-- A concrete `PENDING` response at time 15. -/
def respW : GetTransactionStatusResponsePB :=
  { status := .PENDING, status_hybrid_time := some (.ht 15) }

/-- The entry after `rtWf` receives `respW`: waiters swapped out, cache
updated to `PENDING` at 15. -/
def rtWs : RunningTransaction :=
  { rtW with status_waiters := [],
             last_known_status_time := .ht 15,
             last_known_status := .PENDING }

/-- The replies dispatched for `rtWf`'s three waiters on `respW`. -/
def repliesW : List (Nat × WaiterReply) :=
  [(1, .result ⟨.PENDING, .ht 15⟩),
   (2, .result ⟨.PENDING, .ht 15⟩),
   (3, .result ⟨.PENDING, .ht 15⟩)]

/-- A second concrete transaction id. -/
def idA : TransactionId := ⟨List.replicate 16 0⟩

/-- Concrete metadata for `idA`. -/
def mdA : TransactionMetadata :=
  { transaction_id := idA, isolation := 1, status_tablet := "st",
    priority := 1, start_time := .ht 5 }

/-- A participant table holding only `idA`. -/
def tsA : List RunningTransaction := [mkRunningTransaction mdA]

/-- A follower-mode apply of `idA` at commit time 30. -/
def applyA30 : TransactionApplyData :=
  { transaction_id := idA, commit_time := .ht 30, mode := .FOLLOWER,
    status_tablet := "st" }

/-- A follower-mode apply of `idA` at commit time 40. -/
def applyA40 : TransactionApplyData :=
  { transaction_id := idA, commit_time := .ht 40, mode := .FOLLOWER,
    status_tablet := "st" }

/-- A leader-mode apply of `idA` at commit time 30. -/
def applyL : TransactionApplyData :=
  { transaction_id := idA, commit_time := .ht 30, mode := .LEADER,
    status_tablet := "st" }

/-- A transaction id absent from `tsA`. -/
def idB : TransactionId := ⟨List.replicate 16 7⟩

/-- A leader-mode apply of the absent id `idB`. -/
def applyB : TransactionApplyData :=
  { transaction_id := idB, commit_time := .ht 30, mode := .LEADER,
    status_tablet := "st" }

/-- A wire message whose id is well formed but whose isolation value 99
is no known `IsolationLevel`. -/
def msgBadIso : TransactionMetadataPB :=
  { transaction_id := List.replicate 16 1, isolation := 99,
    status_tablet := "st", priority := 0, start_hybrid_time := .ht 0 }

/-- What `FromPB` returns for `msgBadIso`: the unknown isolation value is
copied verbatim. -/
def mdBadIso : TransactionMetadata :=
  { transaction_id := ⟨List.replicate 16 1⟩, isolation := 99,
    status_tablet := "st", priority := 0, start_time := .ht 0 }

/-- A well-formed wire message decoding to `mdW`. -/
def msgGood : TransactionMetadataPB :=
  { transaction_id := List.replicate 16 3, isolation := 1,
    status_tablet := "status-tablet", priority := 7,
    start_hybrid_time := .ht 5 }

/-- A wire message whose transaction id is malformed (3 bytes). -/
def msgBadId : TransactionMetadataPB :=
  { transaction_id := [1, 2, 3], isolation := 1, status_tablet := "st",
    priority := 0, start_hybrid_time := .ht 0 }

/-- A wire message for `idB`, as persisted in the store. -/
def msgB : TransactionMetadataPB :=
  { transaction_id := List.replicate 16 7, isolation := 2,
    status_tablet := "st2", priority := 9, start_hybrid_time := .ht 4 }

/-- The decoded metadata of `msgB`. -/
def mdB : TransactionMetadata :=
  { transaction_id := idB, isolation := 2, status_tablet := "st2",
    priority := 9, start_time := .ht 4 }

/-- A persistent store holding `msgB` under `encode(idB)`. -/
def dbB : List (List Nat × StoredValue) :=
  [( AppendTransactionKeyPrefix idB, .pb msgB)]

end YbTablet

namespace YbTablet

theorem HybridTime.ble_refl (a : HybridTime) : HybridTime.ble a a = true := by
  cases a <;> simp [HybridTime.ble]

/-- C1: the cached-status extrapolation helper `GetStatusAt` returns
`ABORTED` whenever the known status is `ABORTED`; `COMMITTED` when the
known status is `COMMITTED` and the known time is at most the request
time, and `PENDING` when the known time is above the request time;
`PENDING` when the known status is `PENDING` and the known time is at
least the request time, and no answer when the known time is below the
request time. -/
theorem GetStatusAt_extrapolation (request_time known_time : HybridTime) :
    GetStatusAt request_time known_time .ABORTED = .ok (some .ABORTED) ∧
    (HybridTime.ble known_time request_time = true →
      GetStatusAt request_time known_time .COMMITTED = .ok (some .COMMITTED)) ∧
    (HybridTime.blt request_time known_time = true →
      GetStatusAt request_time known_time .COMMITTED = .ok (some .PENDING)) ∧
    (HybridTime.ble request_time known_time = true →
      GetStatusAt request_time known_time .PENDING = .ok (some .PENDING)) ∧
    (HybridTime.blt known_time request_time = true →
      GetStatusAt request_time known_time .PENDING = .ok none) := by
  refine ⟨rfl, ?_, ?_, ?_, ?_⟩
  · intro h
    simp [GetStatusAt, HybridTime.blt, h]
  · intro h
    simp [GetStatusAt, h]
  · intro h
    simp [GetStatusAt, h]
  · intro h
    simp only [HybridTime.blt, Bool.not_eq_true'] at h
    simp [GetStatusAt, h]

/-- Witness for C1 at the spec's own unit-test points (known time 15,
request times 10 and 20). -/
theorem GetStatusAt_extrapolation_witness :
    GetStatusAt (.ht 20) (.ht 15) .COMMITTED = .ok (some .COMMITTED) ∧
    GetStatusAt (.ht 10) (.ht 15) .COMMITTED = .ok (some .PENDING) ∧
    GetStatusAt (.ht 10) (.ht 15) .PENDING = .ok (some .PENDING) ∧
    GetStatusAt (.ht 20) (.ht 15) .PENDING = .ok none :=
  ⟨(GetStatusAt_extrapolation (.ht 20) (.ht 15)).2.1 (by decide),
   (GetStatusAt_extrapolation (.ht 10) (.ht 15)).2.2.1 (by decide),
   (GetStatusAt_extrapolation (.ht 10) (.ht 15)).2.2.2.1 (by decide),
   (GetStatusAt_extrapolation (.ht 20) (.ht 15)).2.2.2.2 (by decide)⟩

/-- Shape of a successful `RequestStatusAt`: either the cache answered
(entry unchanged, no RPC, immediate callback), or the waiter was enqueued
(no immediate callback) and an RPC was started exactly when the waiter
queue was empty before the call. -/
theorem requestStatusAt_shape (rt : RunningTransaction) (t : HybridTime) (c : Nat)
    (eff : StatusRequestEffect) (h : rt.requestStatusAt t c = .ok eff) :
    (eff.newEntry = rt ∧ eff.rpc = none ∧ eff.immediate.isSome = true) ∨
    (eff.newEntry = { rt with status_waiters := rt.status_waiters ++ [⟨c, t⟩] } ∧
     eff.immediate = none ∧
     (eff.rpc.isSome = true ↔ rt.status_waiters = [])) := by
  unfold RunningTransaction.requestStatusAt at h
  have henq : ∀ eff1 : StatusRequestEffect, rt.enqueueStatusWaiter t c = eff1 →
      (eff1.newEntry = { rt with status_waiters := rt.status_waiters ++ [⟨c, t⟩] } ∧
       eff1.immediate = none ∧
       (eff1.rpc.isSome = true ↔ rt.status_waiters = [])) := by
    intro eff1 he
    subst he
    unfold RunningTransaction.enqueueStatusWaiter
    cases hw : rt.status_waiters with
    | nil => simp [hw]
    | cons a l => simp [hw]
  split at h
  · split at h
    · simp at h
    · injection h with h1
      subst h1
      left
      exact ⟨rfl, rfl, rfl⟩
    · injection h with h1
      exact Or.inr (henq eff h1)
  · injection h with h1
    exact Or.inr (henq eff h1)

/-- A `RequestStatusAt` call on an entry whose waiter queue is non-empty
never starts an RPC, and leaves the queue non-empty. -/
theorem requestStatusAt_of_nonempty (rt : RunningTransaction) (t : HybridTime)
    (c : Nat) (eff : StatusRequestEffect) (h : rt.requestStatusAt t c = .ok eff)
    (hne : rt.status_waiters ≠ []) :
    eff.rpc = none ∧ eff.newEntry.status_waiters ≠ [] := by
  rcases requestStatusAt_shape rt t c eff h with ⟨he, hr, _⟩ | ⟨he, _, hr⟩
  · exact ⟨hr, by rw [he]; exact hne⟩
  · have hrn : eff.rpc.isSome = false := by
      cases hri : eff.rpc.isSome
      · rfl
      · exact absurd (hr.mp hri) hne
    refine ⟨Option.not_isSome_iff_eq_none.mp (by simp [hrn]), ?_⟩
    rw [he]
    simp

/-- A `RequestStatusAt` call on an entry with an empty waiter queue
either is answered from the cache (entry unchanged, no RPC) or starts an
RPC and leaves the queue non-empty. -/
theorem requestStatusAt_of_empty (rt : RunningTransaction) (t : HybridTime)
    (c : Nat) (eff : StatusRequestEffect) (h : rt.requestStatusAt t c = .ok eff)
    (he : rt.status_waiters = []) :
    (eff.newEntry = rt ∧ eff.rpc = none) ∨
    (eff.rpc.isSome = true ∧ eff.newEntry.status_waiters ≠ []) := by
  rcases requestStatusAt_shape rt t c eff h with ⟨h1, h2, _⟩ | ⟨h1, _, h3⟩
  · exact Or.inl ⟨h1, h2⟩
  · refine Or.inr ⟨h3.mpr he, ?_⟩
    rw [h1]
    simp

/-- Destructor for a successful `runRequests` on a non-empty request
list. -/
theorem runRequests_cons_ok (rt : RunningTransaction) (c : Nat) (t : HybridTime)
    (rest : List (Nat × HybridTime)) (rtf : RunningTransaction) (n : Nat)
    (h : runRequests rt ((c, t) :: rest) = .ok (rtf, n)) :
    ∃ (eff : StatusRequestEffect) (rtf1 : RunningTransaction) (n1 : Nat),
      rt.requestStatusAt t c = .ok eff ∧
      runRequests eff.newEntry rest = .ok (rtf1, n1) ∧
      rtf = rtf1 ∧ n = (if eff.rpc.isSome then 1 else 0) + n1 := by
  unfold runRequests at h
  cases heff : rt.requestStatusAt t c with
  | error e =>
    rw [heff] at h
    exact absurd
      (h : (Except.error e : Except Unit (RunningTransaction × Nat)) = .ok (rtf, n))
      (by simp)
  | ok eff =>
    rw [heff] at h
    have h1 : (match runRequests eff.newEntry rest with
        | Except.error e => (Except.error e : Except Unit (RunningTransaction × Nat))
        | Except.ok (rtf, n) =>
          Except.ok (rtf, (if eff.rpc.isSome then 1 else 0) + n)) =
        Except.ok (rtf, n) := h
    cases hrun : runRequests eff.newEntry rest with
    | error e =>
      rw [hrun] at h1
      exact absurd
        (h1 : (Except.error e : Except Unit (RunningTransaction × Nat)) = .ok (rtf, n))
        (by simp)
    | ok pr =>
      obtain ⟨rtf1, n1⟩ := pr
      rw [hrun] at h1
      have h2 : (Except.ok (rtf1, (if eff.rpc.isSome then 1 else 0) + n1) :
          Except Unit (RunningTransaction × Nat)) = Except.ok (rtf, n) := h1
      injection h2 with h3
      injection h3 with h4 h5
      exact ⟨eff, rtf1, n1, rfl, hrun, h4.symm, h5.symm⟩

/-- After any run of `RequestStatusAt` calls on an entry whose waiter
queue is non-empty, no RPC was issued and the queue stays non-empty. -/
theorem runRequests_of_nonempty (reqs : List (Nat × HybridTime)) :
    ∀ (rt rtf : RunningTransaction) (n : Nat),
      rt.status_waiters ≠ [] → runRequests rt reqs = .ok (rtf, n) →
      n = 0 ∧ rtf.status_waiters ≠ [] := by
  induction reqs with
  | nil =>
    intro rt rtf n hne h
    simp [runRequests] at h
    obtain ⟨h1, h2⟩ := h
    subst h1
    subst h2
    exact ⟨rfl, hne⟩
  | cons p rest ih =>
    intro rt rtf n hne h
    obtain ⟨c, t⟩ := p
    obtain ⟨eff, rtf1, n1, heff, hrun, hrtf, hn⟩ :=
      runRequests_cons_ok rt c t rest rtf n h
    obtain ⟨hrpc, hne1⟩ := requestStatusAt_of_nonempty rt t c eff heff hne
    obtain ⟨h0, hne2⟩ := ih eff.newEntry rtf1 n1 hne1 hrun
    subst hrtf
    subst hn
    exact ⟨by simp [hrpc, h0], hne2⟩

/-- After any run of `RequestStatusAt` calls starting from an empty
waiter queue, at most one RPC was issued, and exactly one iff some call
was left waiting. -/
theorem runRequests_of_empty (reqs : List (Nat × HybridTime)) :
    ∀ (rt rtf : RunningTransaction) (n : Nat),
      rt.status_waiters = [] → runRequests rt reqs = .ok (rtf, n) →
      n ≤ 1 ∧ (n = 1 ↔ rtf.status_waiters ≠ []) := by
  induction reqs with
  | nil =>
    intro rt rtf n he h
    simp [runRequests] at h
    obtain ⟨h1, h2⟩ := h
    subst h1
    subst h2
    exact ⟨by omega, by simp [he]⟩
  | cons p rest ih =>
    intro rt rtf n he h
    obtain ⟨c, t⟩ := p
    obtain ⟨eff, rtf1, n1, heff, hrun, hrtf, hn⟩ :=
      runRequests_cons_ok rt c t rest rtf n h
    rcases requestStatusAt_of_empty rt t c eff heff he with ⟨h1, h2⟩ | ⟨h1, h2⟩
    · have he1 : eff.newEntry.status_waiters = [] := by rw [h1]; exact he
      obtain ⟨hle, hiff⟩ := ih eff.newEntry rtf1 n1 he1 hrun
      subst hrtf
      subst hn
      constructor
      · simpa [h2] using hle
      · simpa [h2] using hiff
    · obtain ⟨h0, hne2⟩ := runRequests_of_nonempty rest eff.newEntry rtf1 n1 h2 hrun
      subst h0
      subst hrtf
      subst hn
      exact ⟨by simp [h1], by simp [h1, hne2]⟩

/-- C2: between two RPC completions (so starting from an empty waiter
queue), any sequence of `RequestStatusAt` calls on the same entry issues
at most one outbound `GetTransactionStatus` RPC, and exactly one iff some
call was left waiting; a call that (after missing the cache) finds the
waiter queue non-empty only enqueues its callback and starts no RPC; a
call answered from the cache starts no RPC and leaves the entry
unchanged. -/
theorem RequestStatusAt_single_rpc :
    (∀ (rt : RunningTransaction) (reqs : List (Nat × HybridTime))
        (rtf : RunningTransaction) (n : Nat),
        rt.status_waiters = [] → runRequests rt reqs = .ok (rtf, n) →
        n ≤ 1 ∧ (n = 1 ↔ rtf.status_waiters ≠ [])) ∧
    (∀ (rt : RunningTransaction) (t : HybridTime) (c : Nat)
        (eff : StatusRequestEffect),
        rt.requestStatusAt t c = .ok eff → rt.status_waiters ≠ [] →
        eff.rpc = none ∧
        (eff.immediate = none →
          eff.newEntry =
            { rt with status_waiters := rt.status_waiters ++ [⟨c, t⟩] })) ∧
    (∀ (rt : RunningTransaction) (t : HybridTime) (c : Nat)
        (eff : StatusRequestEffect),
        rt.requestStatusAt t c = .ok eff → eff.immediate.isSome = true →
        eff.rpc = none ∧ eff.newEntry = rt) := by
  refine ⟨?_, ?_, ?_⟩
  · intro rt reqs rtf n he h
    exact runRequests_of_empty reqs rt rtf n he h
  · intro rt t c eff h hne
    rcases requestStatusAt_shape rt t c eff h with ⟨h1, h2, h3⟩ | ⟨h1, h2, h3⟩
    · refine ⟨h2, ?_⟩
      intro hinone
      rw [hinone] at h3
      simp at h3
    · have hrf : eff.rpc.isSome = false := by
        cases hri : eff.rpc.isSome
        · rfl
        · exact absurd (h3.mp hri) hne
      exact ⟨Option.not_isSome_iff_eq_none.mp (by simp [hrf]), fun _ => h1⟩
  · intro rt t c eff h hi
    rcases requestStatusAt_shape rt t c eff h with ⟨h1, h2, h3⟩ | ⟨h1, h2, h3⟩
    · exact ⟨h2, h1⟩
    · rw [h2] at hi
      simp at hi

/-- Witness for C2: three concurrent `RequestStatusAt` on a fresh entry
issue exactly one RPC and leave three waiters queued. -/
theorem RequestStatusAt_single_rpc_witness :
    1 ≤ 1 ∧ (1 = 1 ↔ rtWf.status_waiters ≠ []) :=
  RequestStatusAt_single_rpc.1 rtW reqsW rtWf 1 rfl (by rfl)

/-- On a successful `StatusReceived` completion of an Ok RPC, the
resulting entry is exactly the `statusCacheUpdate` of the swapped-out
entry. -/
theorem statusReceived_ok_entry (rt : RunningTransaction)
    (resp : GetTransactionStatusResponsePB) (rt2 : RunningTransaction)
    (replies : List (Nat × WaiterReply))
    (h : rt.statusReceived true resp = .ok (rt2, replies)) :
    rt2 = statusCacheUpdate { rt with status_waiters := [] } resp.status
      (resp.status_hybrid_time.getD HybridTime.max) := by
  have h1 : (match dispatchStatusWaiters
        (statusCacheUpdate { rt with status_waiters := [] } resp.status
          (resp.status_hybrid_time.getD HybridTime.max)) rt.status_waiters with
      | Except.error er =>
        (Except.error er : Except Unit (RunningTransaction × List (Nat × WaiterReply)))
      | Except.ok replies =>
        Except.ok (statusCacheUpdate { rt with status_waiters := [] } resp.status
          (resp.status_hybrid_time.getD HybridTime.max), replies)) =
      .ok (rt2, replies) := h
  cases hd : dispatchStatusWaiters
      (statusCacheUpdate { rt with status_waiters := [] } resp.status
        (resp.status_hybrid_time.getD HybridTime.max)) rt.status_waiters with
  | error er =>
    rw [hd] at h1
    exact absurd
      (h1 : (Except.error er :
        Except Unit (RunningTransaction × List (Nat × WaiterReply))) =
        .ok (rt2, replies))
      (by simp)
  | ok rs =>
    rw [hd] at h1
    have h2 : (Except.ok (statusCacheUpdate { rt with status_waiters := [] }
        resp.status (resp.status_hybrid_time.getD HybridTime.max), rs) :
        Except Unit (RunningTransaction × List (Nat × WaiterReply))) =
        .ok (rt2, replies) := h1
    injection h2 with h3
    exact (congrArg Prod.fst h3).symm

/-- `statusCacheUpdate` never decreases the cached status time. -/
theorem statusCacheUpdate_mono (rt0 : RunningTransaction)
    (status : TransactionStatus) (time : HybridTime) :
    HybridTime.ble rt0.last_known_status_time
      (statusCacheUpdate rt0 status time).last_known_status_time = true := by
  unfold statusCacheUpdate
  split
  · next hcond => exact hcond
  · exact HybridTime.ble_refl _

/-- `statusCacheUpdate` stores the response exactly when the response
time is at least the stored time, and otherwise changes nothing. -/
theorem statusCacheUpdate_spec (rt0 : RunningTransaction)
    (status : TransactionStatus) (time : HybridTime) :
    (HybridTime.ble rt0.last_known_status_time time = true →
      statusCacheUpdate rt0 status time =
        { rt0 with last_known_status_time := time,
                   last_known_status := status }) ∧
    (HybridTime.ble rt0.last_known_status_time time = false →
      statusCacheUpdate rt0 status time = rt0) := by
  constructor <;> intro hcond <;> simp [statusCacheUpdate, hcond]

/-- C3: `last_known_status_time` is monotonically non-decreasing across
`StatusReceived`: the cached `{last_known_status,
last_known_status_time}` pair is overwritten only when the response time
(`status_hybrid_time` if present, else `kMax`) is at least the stored
time, so an older observation never overwrites a newer one, and a failed
RPC changes nothing. -/
theorem StatusReceived_monotone (rt : RunningTransaction) (rpc_ok : Bool)
    (resp : GetTransactionStatusResponsePB) (rt2 : RunningTransaction)
    (replies : List (Nat × WaiterReply))
    (h : rt.statusReceived rpc_ok resp = .ok (rt2, replies)) :
    HybridTime.ble rt.last_known_status_time rt2.last_known_status_time = true ∧
    (rpc_ok = true →
      (HybridTime.ble rt.last_known_status_time
          (resp.status_hybrid_time.getD HybridTime.max) = true →
        rt2.last_known_status_time = resp.status_hybrid_time.getD HybridTime.max ∧
        rt2.last_known_status = resp.status) ∧
      (HybridTime.ble rt.last_known_status_time
          (resp.status_hybrid_time.getD HybridTime.max) = false →
        rt2.last_known_status_time = rt.last_known_status_time ∧
        rt2.last_known_status = rt.last_known_status)) ∧
    (rpc_ok = false →
      rt2.last_known_status_time = rt.last_known_status_time ∧
      rt2.last_known_status = rt.last_known_status) := by
  cases rpc_ok with
  | false =>
    have h1 : (Except.ok ({ rt with status_waiters := [] },
        rt.status_waiters.map (fun w => (w.callback, WaiterReply.rpcError))) :
        Except Unit (RunningTransaction × List (Nat × WaiterReply))) =
        .ok (rt2, replies) := h
    injection h1 with h2
    have h3 : ({ rt with status_waiters := [] } : RunningTransaction) = rt2 :=
      congrArg Prod.fst h2
    refine ⟨?_, by simp, fun _ => ?_⟩
    · rw [← h3]
      exact HybridTime.ble_refl _
    · rw [← h3]
      exact ⟨rfl, rfl⟩
  | true =>
    have hrt : rt2 = statusCacheUpdate { rt with status_waiters := [] } resp.status
        (resp.status_hybrid_time.getD HybridTime.max) :=
      statusReceived_ok_entry rt resp rt2 replies h
    subst hrt
    refine ⟨statusCacheUpdate_mono { rt with status_waiters := [] } resp.status
      (resp.status_hybrid_time.getD HybridTime.max), fun _ => ⟨?_, ?_⟩, by simp⟩
    · intro hcond
      rw [(statusCacheUpdate_spec { rt with status_waiters := [] } resp.status
        (resp.status_hybrid_time.getD HybridTime.max)).1 hcond]
      exact ⟨rfl, rfl⟩
    · intro hcond
      rw [(statusCacheUpdate_spec { rt with status_waiters := [] } resp.status
        (resp.status_hybrid_time.getD HybridTime.max)).2 hcond]
      exact ⟨rfl, rfl⟩

/-- Witness for C3: `rtWf` (stored time `kMin`) receiving `PENDING` at 15
stores the pair and answers all three waiters. -/
theorem StatusReceived_monotone_witness :
    HybridTime.ble rtWf.last_known_status_time rtWs.last_known_status_time = true ∧
    (true = true →
      (HybridTime.ble rtWf.last_known_status_time
          (respW.status_hybrid_time.getD HybridTime.max) = true →
        rtWs.last_known_status_time = respW.status_hybrid_time.getD HybridTime.max ∧
        rtWs.last_known_status = respW.status) ∧
      (HybridTime.ble rtWf.last_known_status_time
          (respW.status_hybrid_time.getD HybridTime.max) = false →
        rtWs.last_known_status_time = rtWf.last_known_status_time ∧
        rtWs.last_known_status = rtWf.last_known_status)) ∧
    (true = false →
      rtWs.last_known_status_time = rtWf.last_known_status_time ∧
      rtWs.last_known_status = rtWf.last_known_status) :=
  StatusReceived_monotone rtWf true respW rtWs repliesW (by rfl)

/-- The observable behaviour of `RequestStatusAt` (its RPC and its
immediate callback, though not the retained waiter queues) does not
depend on the entry's abort waiters. -/
theorem requestStatusAt_observable (rt : RunningTransaction) (t : HybridTime)
    (c : Nat) (aw : List Nat) :
    (({ rt with abort_waiters := aw } : RunningTransaction).requestStatusAt t c).map
        (fun eff => (eff.rpc, eff.immediate)) =
      (rt.requestStatusAt t c).map (fun eff => (eff.rpc, eff.immediate)) := by
  unfold RunningTransaction.requestStatusAt RunningTransaction.enqueueStatusWaiter
  cases hblt : HybridTime.blt HybridTime.min rt.last_known_status_time with
  | false =>
    cases hw : rt.status_waiters.isEmpty <;> simp [hblt, hw, Except.map]
  | true =>
    cases hg : GetStatusAt t rt.last_known_status_time rt.last_known_status with
    | error e => simp [hblt, hg, Except.map]
    | ok o =>
      cases o with
      | some ts => simp [hblt, hg, Except.map]
      | none =>
        cases hw : rt.status_waiters.isEmpty <;> simp [hblt, hg, hw, Except.map]

/-- C9: completion of an `Abort` RPC only swaps out and answers the abort
waiters: `AbortReceived` leaves the cached status fields, the local
commit time, the metadata and the status waiters untouched, builds each
waiter's answer with `MakeAbortResult` — `{response.status,
response.status_hybrid_time or kInvalid}` on success, the failure itself
otherwise — and a later `RequestStatusAt` sees exactly the cache it would
have seen before the abort completion. -/
theorem AbortReceived_frame (rt : RunningTransaction) (rpc_ok : Bool)
    (resp : AbortTransactionResponsePB) :
    (rt.abortReceived rpc_ok resp).1.last_known_status = rt.last_known_status ∧
    (rt.abortReceived rpc_ok resp).1.last_known_status_time =
      rt.last_known_status_time ∧
    (rt.abortReceived rpc_ok resp).1.local_commit_time = rt.local_commit_time ∧
    (rt.abortReceived rpc_ok resp).1.metadata = rt.metadata ∧
    (rt.abortReceived rpc_ok resp).1.status_waiters = rt.status_waiters ∧
    (rt.abortReceived rpc_ok resp).1.abort_waiters = [] ∧
    (rt.abortReceived rpc_ok resp).2 =
      rt.abort_waiters.map (fun c => (c, MakeAbortResult rpc_ok resp)) ∧
    MakeAbortResult true resp =
      .ok { status := resp.status,
            status_time := resp.status_hybrid_time.getD HybridTime.invalid } ∧
    MakeAbortResult false resp = .error () ∧
    (∀ (t : HybridTime) (c : Nat),
      ((rt.abortReceived rpc_ok resp).1.requestStatusAt t c).map
          (fun eff => (eff.rpc, eff.immediate)) =
        (rt.requestStatusAt t c).map (fun eff => (eff.rpc, eff.immediate))) :=
  ⟨rfl, rfl, rfl, rfl, rfl, rfl, rfl, rfl, rfl,
   fun t c => requestStatusAt_observable rt t c []⟩

/-- The table lookup after the in-place commit-time update: the entry is
found iff it was found before, with its commit time set. -/
theorem findTxn_applyCommit (ts : List RunningTransaction) (id : TransactionId)
    (time : HybridTime) :
    findTxn (applyCommit ts id time) id =
      (findTxn ts id).map (fun rt => { rt with local_commit_time := time }) := by
  induction ts with
  | nil => rfl
  | cons rt rest ih =>
    by_cases hp : rt.metadata.transaction_id = id
    · have hb : (rt.metadata.transaction_id == id) = true := beq_iff_eq.mpr hp
      show List.find? (fun x => x.metadata.transaction_id == id)
          ((if rt.metadata.transaction_id = id then
              { rt with local_commit_time := time }
            else rt) :: applyCommit rest id time) =
        (List.find? (fun x => x.metadata.transaction_id == id)
          (rt :: rest)).map (fun x => { x with local_commit_time := time })
      rw [if_pos hp]
      simp only [List.find?_cons, hb]
      rfl
    · have hb : (rt.metadata.transaction_id == id) = false :=
        beq_eq_false_iff_ne.mpr hp
      show List.find? (fun x => x.metadata.transaction_id == id)
          ((if rt.metadata.transaction_id = id then
              { rt with local_commit_time := time }
            else rt) :: applyCommit rest id time) =
        (List.find? (fun x => x.metadata.transaction_id == id)
          (rt :: rest)).map (fun x => { x with local_commit_time := time })
      rw [if_neg hp]
      simp only [List.find?_cons, hb]
      exact ih

/-- `ProcessApply` on a present id: the in-place update happens, no
warning, Ok result, and the RPC is built exactly in `LEADER` mode. -/
theorem ProcessApply_found (tablet_id : String) (ts : List RunningTransaction)
    (data : TransactionApplyData) (rt0 : RunningTransaction)
    (h : findTxn ts data.transaction_id = some rt0) :
    TransactionParticipant.ProcessApply tablet_id ts data =
      { transactions := applyCommit ts data.transaction_id data.commit_time,
        update_rpc :=
          if data.mode == ProcessingMode.LEADER then
            some { tablet_id := data.status_tablet,
                   state_transaction_id := data.transaction_id,
                   state_status := .APPLIED_IN_ONE_OF_INVOLVED_TABLETS,
                   state_tablets := [tablet_id] }
          else
            none,
        warned_unknown := false, result_ok := true } := by
  unfold TransactionParticipant.ProcessApply
  rw [h]

/-- `ProcessApply` on an absent id changes nothing, warns, returns Ok. -/
theorem ProcessApply_absent (tablet_id : String) (ts : List RunningTransaction)
    (data : TransactionApplyData) (h : findTxn ts data.transaction_id = none) :
    TransactionParticipant.ProcessApply tablet_id ts data =
      { transactions := ts, update_rpc := none,
        warned_unknown := true, result_ok := true } := by
  unfold TransactionParticipant.ProcessApply
  rw [h]

/-- After the in-place update, the recorded local commit time reads
back. -/
theorem LocalCommitTime_applyCommit (ts : List RunningTransaction)
    (id : TransactionId) (time : HybridTime) (rt0 : RunningTransaction)
    (h : findTxn ts id = some rt0) :
    TransactionParticipant.LocalCommitTime (applyCommit ts id time) id = time := by
  unfold TransactionParticipant.LocalCommitTime
  rw [findTxn_applyCommit, h]
  rfl

/-- C5: after `ProcessApply(d)` for an id present in the table,
`LocalCommitTime(id)` equals `d.commit_time` and the returned status is
Ok; for an absent id the table is unchanged, the unknown-transaction
warning is logged, and the returned status is still Ok. -/
theorem ProcessApply_LocalCommitTime (tablet_id : String)
    (ts : List RunningTransaction) (data : TransactionApplyData) :
    (∀ rt0 : RunningTransaction, findTxn ts data.transaction_id = some rt0 →
      TransactionParticipant.LocalCommitTime
        (TransactionParticipant.ProcessApply tablet_id ts data).transactions
        data.transaction_id = data.commit_time ∧
      (TransactionParticipant.ProcessApply tablet_id ts data).result_ok = true) ∧
    (findTxn ts data.transaction_id = none →
      (TransactionParticipant.ProcessApply tablet_id ts data).transactions = ts ∧
      (TransactionParticipant.ProcessApply tablet_id ts data).warned_unknown = true ∧
      (TransactionParticipant.ProcessApply tablet_id ts data).result_ok = true) := by
  constructor
  · intro rt0 h
    rw [ProcessApply_found tablet_id ts data rt0 h]
    exact ⟨LocalCommitTime_applyCommit ts data.transaction_id data.commit_time rt0 h,
           rfl⟩
  · intro h
    rw [ProcessApply_absent tablet_id ts data h]
    exact ⟨rfl, rfl, rfl⟩

/-- Witness for C5: applying `idA` at commit time 30 on `tsA` records 30;
applying the absent `idB` leaves `tsA` unchanged and still succeeds. -/
theorem ProcessApply_LocalCommitTime_witness :
    (TransactionParticipant.LocalCommitTime
        (TransactionParticipant.ProcessApply "tablet-1" tsA applyA30).transactions
        idA = HybridTime.ht 30 ∧
     (TransactionParticipant.ProcessApply "tablet-1" tsA applyA30).result_ok = true) ∧
    ((TransactionParticipant.ProcessApply "tablet-1" tsA applyB).transactions = tsA ∧
     (TransactionParticipant.ProcessApply "tablet-1" tsA applyB).warned_unknown = true ∧
     (TransactionParticipant.ProcessApply "tablet-1" tsA applyB).result_ok = true) :=
  ⟨(ProcessApply_LocalCommitTime "tablet-1" tsA applyA30).1
     (mkRunningTransaction mdA) (by rfl),
   (ProcessApply_LocalCommitTime "tablet-1" tsA applyB).2 (by rfl)⟩

/-- C4 counterexample: `SetLocalCommitTime` assigns unconditionally, so a
second apply carrying a different commit time (40) overwrites the value
(30) established by the first apply — the claim as stated fails. -/
theorem SetLocalCommitTime_overwrite_cex :
    TransactionParticipant.LocalCommitTime
      (TransactionParticipant.ProcessApply "tablet-1" tsA applyA30).transactions
      idA = HybridTime.ht 30 ∧
    TransactionParticipant.LocalCommitTime
      (TransactionParticipant.ProcessApply "tablet-1"
        (TransactionParticipant.ProcessApply "tablet-1" tsA applyA30).transactions
        applyA40).transactions idA = HybridTime.ht 40 ∧
    HybridTime.ht 40 ≠ HybridTime.ht 30 :=
  ⟨rfl, rfl, by decide⟩

/-- On a failed-RPC `StatusReceived` completion, the resulting entry is
the old one with the status waiters swapped out. -/
theorem statusReceived_fail_entry (rt : RunningTransaction)
    (resp : GetTransactionStatusResponsePB) (rt2 : RunningTransaction)
    (replies : List (Nat × WaiterReply))
    (h : rt.statusReceived false resp = .ok (rt2, replies)) :
    rt2 = { rt with status_waiters := [] } := by
  have h1 : (Except.ok ({ rt with status_waiters := [] },
      rt.status_waiters.map (fun w => (w.callback, WaiterReply.rpcError))) :
      Except Unit (RunningTransaction × List (Nat × WaiterReply))) =
      .ok (rt2, replies) := h
  injection h1 with h2
  exact (congrArg Prod.fst h2).symm

/-- `statusCacheUpdate` never touches the local commit time. -/
theorem statusCacheUpdate_local_commit (rt0 : RunningTransaction)
    (status : TransactionStatus) (time : HybridTime) :
    (statusCacheUpdate rt0 status time).local_commit_time =
      rt0.local_commit_time := by
  unfold statusCacheUpdate
  split <;> rfl

/-- C4 corrected: `local_commit_time` is written only by `ProcessApply`,
which always sets it to the current apply's commit time; hence any later
apply carrying the same id and commit time (as a retry of the same apply
does) preserves the value established by the first apply, and the
status-RPC, abort-RPC and status-request paths never change it. -/
theorem SetLocalCommitTime_amended :
    (∀ (tablet_id : String) (ts : List RunningTransaction)
        (d1 d2 : TransactionApplyData) (rt0 : RunningTransaction),
        findTxn ts d1.transaction_id = some rt0 →
        d2.transaction_id = d1.transaction_id →
        d2.commit_time = d1.commit_time →
        TransactionParticipant.LocalCommitTime
          (TransactionParticipant.ProcessApply tablet_id
            (TransactionParticipant.ProcessApply tablet_id ts d1).transactions
            d2).transactions d1.transaction_id = d1.commit_time) ∧
    (∀ (rt : RunningTransaction) (rpc_ok : Bool)
        (resp : GetTransactionStatusResponsePB) (rt2 : RunningTransaction)
        (replies : List (Nat × WaiterReply)),
        rt.statusReceived rpc_ok resp = .ok (rt2, replies) →
        rt2.local_commit_time = rt.local_commit_time) ∧
    (∀ (rt : RunningTransaction) (rpc_ok : Bool)
        (resp : AbortTransactionResponsePB),
        (rt.abortReceived rpc_ok resp).1.local_commit_time =
          rt.local_commit_time) ∧
    (∀ (rt : RunningTransaction) (t : HybridTime) (c : Nat)
        (eff : StatusRequestEffect),
        rt.requestStatusAt t c = .ok eff →
        eff.newEntry.local_commit_time = rt.local_commit_time) := by
  refine ⟨?_, ?_, ?_, ?_⟩
  · intro tid ts d1 d2 rt0 h hid hct
    rw [ProcessApply_found tid ts d1 rt0 h]
    dsimp only
    have h2 : findTxn (applyCommit ts d1.transaction_id d1.commit_time)
        d2.transaction_id =
        some { rt0 with local_commit_time := d1.commit_time } := by
      rw [hid, findTxn_applyCommit, h]
      rfl
    rw [ProcessApply_found tid _ d2 _ h2]
    dsimp only
    rw [hid, hct]
    exact LocalCommitTime_applyCommit _ d1.transaction_id d1.commit_time _
      (by rw [findTxn_applyCommit, h]; rfl)
  · intro rt rpc_ok resp rt2 replies h
    cases rpc_ok with
    | false => rw [statusReceived_fail_entry rt resp rt2 replies h]
    | true =>
      rw [statusReceived_ok_entry rt resp rt2 replies h,
          statusCacheUpdate_local_commit]
  · intro rt rpc_ok resp
    rfl
  · intro rt t c eff h
    rcases requestStatusAt_shape rt t c eff h with ⟨h1, _, _⟩ | ⟨h1, _, _⟩ <;>
      rw [h1]

/-- Witness for C4 (amended): re-applying `applyA30` preserves the commit
time 30 recorded by the first apply. -/
theorem SetLocalCommitTime_amended_witness :
    TransactionParticipant.LocalCommitTime
      (TransactionParticipant.ProcessApply "tablet-1"
        (TransactionParticipant.ProcessApply "tablet-1" tsA applyA30).transactions
        applyA30).transactions applyA30.transaction_id = applyA30.commit_time :=
  SetLocalCommitTime_amended.1 "tablet-1" tsA applyA30 applyA30
    (mkRunningTransaction mdA) (by rfl) rfl rfl

/-- C6 counterexample: `ProcessApply` of an id absent from the table
returns before the mode check, so a `LEADER`-mode apply of the absent
`idB` issues no `UpdateTransaction` RPC — the claim's "iff" fails. -/
theorem ProcessApply_rpc_absent_cex :
    applyB.mode = ProcessingMode.LEADER ∧
    findTxn tsA applyB.transaction_id = none ∧
    (TransactionParticipant.ProcessApply "tablet-1" tsA applyB).update_rpc =
      none :=
  ⟨rfl, rfl, rfl⟩

/-- C6 corrected: for an id present in the table, `ProcessApply` sends
the `UpdateTransaction` RPC — carrying
`APPLIED_IN_ONE_OF_INVOLVED_TABLETS` and this shard's tablet id — iff the
mode is `LEADER`, and never in `FOLLOWER` mode; for an absent id no RPC
is sent regardless of mode. -/
theorem ProcessApply_update_rpc_amended (tablet_id : String)
    (ts : List RunningTransaction) (data : TransactionApplyData) :
    (∀ rt0 : RunningTransaction, findTxn ts data.transaction_id = some rt0 →
      ((TransactionParticipant.ProcessApply tablet_id ts data).update_rpc =
          some { tablet_id := data.status_tablet,
                 state_transaction_id := data.transaction_id,
                 state_status := .APPLIED_IN_ONE_OF_INVOLVED_TABLETS,
                 state_tablets := [tablet_id] } ↔
        data.mode = ProcessingMode.LEADER) ∧
      (data.mode = ProcessingMode.FOLLOWER →
        (TransactionParticipant.ProcessApply tablet_id ts data).update_rpc =
          none)) ∧
    (findTxn ts data.transaction_id = none →
      (TransactionParticipant.ProcessApply tablet_id ts data).update_rpc =
        none) := by
  constructor
  · intro rt0 h
    rw [ProcessApply_found tablet_id ts data rt0 h]
    dsimp only
    cases hm : data.mode <;> simp
  · intro h
    rw [ProcessApply_absent tablet_id ts data h]

/-- Witness for C6 (amended): a leader-mode apply of the present `idA`
sends the RPC, and the `LEADER` iff holds at this input. -/
theorem ProcessApply_update_rpc_amended_witness :
    ((TransactionParticipant.ProcessApply "tablet-1" tsA applyL).update_rpc =
        some { tablet_id := applyL.status_tablet,
               state_transaction_id := applyL.transaction_id,
               state_status := .APPLIED_IN_ONE_OF_INVOLVED_TABLETS,
               state_tablets := ["tablet-1"] } ↔
      applyL.mode = ProcessingMode.LEADER) ∧
    (applyL.mode = ProcessingMode.FOLLOWER →
      (TransactionParticipant.ProcessApply "tablet-1" tsA applyL).update_rpc =
        none) :=
  (ProcessApply_update_rpc_amended "tablet-1" tsA applyL).1
    (mkRunningTransaction mdA) (by rfl)

/-- C7 counterexample: `FromPB` copies the isolation field verbatim and
performs no validity check, so a message with the unknown isolation value
99 decodes successfully instead of producing a decode error. -/
theorem FromPB_unknown_isolation_cex :
    knownIsolationLevel msgBadIso.isolation = false ∧
    TransactionMetadata.FromPB msgBadIso = .ok mdBadIso :=
  ⟨rfl, rfl⟩

/-- C7 corrected: `FromPB` returns a decode error exactly when the
transaction id is malformed; for every message with a well-formed id it
returns a metadata value with all five fields taken from the message —
the isolation level is copied without any known-value check. -/
theorem FromPB_decode_spec (msg : TransactionMetadataPB) :
    (DecodeTransactionId msg.transaction_id = .error () →
      TransactionMetadata.FromPB msg = .error ()) ∧
    (∀ id : TransactionId, DecodeTransactionId msg.transaction_id = .ok id →
      TransactionMetadata.FromPB msg =
        .ok { transaction_id := id, isolation := msg.isolation,
              status_tablet := msg.status_tablet, priority := msg.priority,
              start_time := msg.start_hybrid_time }) := by
  constructor
  · intro h
    unfold TransactionMetadata.FromPB
    rw [h]
  · intro id h
    unfold TransactionMetadata.FromPB
    rw [h]

/-- Witness for C7 (amended): a well-formed message decodes to its five
fields; a 3-byte id is rejected. -/
theorem FromPB_decode_spec_witness :
    TransactionMetadata.FromPB msgGood = .ok mdW ∧
    TransactionMetadata.FromPB msgBadId = .error () :=
  ⟨(FromPB_decode_spec msgGood).2 idW (by rfl),
   (FromPB_decode_spec msgBadId).1 (by rfl)⟩

/-- Appending entries after a failed lookup defers to the appended
part. -/
theorem findTxn_append_of_none (ts ts2 : List RunningTransaction)
    (id : TransactionId) (h : findTxn ts id = none) :
    findTxn (ts ++ ts2) id = findTxn ts2 id := by
  unfold findTxn at h ⊢
  rw [List.find?_append, h]
  rfl

/-- A failed lookup means no entry carries the id. -/
theorem countTxn_zero_of_none (ts : List RunningTransaction)
    (id : TransactionId) (h : findTxn ts id = none) : countTxn ts id = 0 := by
  unfold findTxn at h
  rw [List.find?_eq_none] at h
  unfold countTxn
  rw [List.length_eq_zero, List.filter_eq_nil_iff]
  exact h

/-- `Add` of a decodable message whose id is already present: nothing
changes; only the metadata `DCHECK` is evaluated. -/
theorem Add_present (ts : List RunningTransaction)
    (wb : List (List Nat × TransactionMetadataPB))
    (data : TransactionMetadataPB) (md : TransactionMetadata)
    (rt0 : RunningTransaction)
    (hdec : TransactionMetadata.FromPB data = .ok md)
    (hfound : findTxn ts md.transaction_id = some rt0) :
    TransactionParticipant.Add ts wb data =
      { transactions := ts, write_batch := wb, decode_dfatal := false,
        dcheck_ok := rt0.metadata == md } := by
  unfold TransactionParticipant.Add
  rw [hdec]
  show (match findTxn ts md.transaction_id with
    | some existing =>
      ({ transactions := ts, write_batch := wb, decode_dfatal := false,
         dcheck_ok := existing.metadata == md } : AddEffect)
    | none =>
      { transactions := ts ++ [mkRunningTransaction md],
        write_batch := wb ++
          [( AppendTransactionKeyPrefix md.transaction_id, data)],
        decode_dfatal := false, dcheck_ok := true }) = _
  rw [hfound]

/-- `Add` of a decodable message whose id is absent: the entry is
inserted and the persisted record is enqueued. -/
theorem Add_absent (ts : List RunningTransaction)
    (wb : List (List Nat × TransactionMetadataPB))
    (data : TransactionMetadataPB) (md : TransactionMetadata)
    (hdec : TransactionMetadata.FromPB data = .ok md)
    (habs : findTxn ts md.transaction_id = none) :
    TransactionParticipant.Add ts wb data =
      { transactions := ts ++ [mkRunningTransaction md],
        write_batch := wb ++
          [( AppendTransactionKeyPrefix md.transaction_id, data)],
        decode_dfatal := false, dcheck_ok := true } := by
  unfold TransactionParticipant.Add
  rw [hdec]
  show (match findTxn ts md.transaction_id with
    | some existing =>
      ({ transactions := ts, write_batch := wb, decode_dfatal := false,
         dcheck_ok := existing.metadata == md } : AddEffect)
    | none =>
      { transactions := ts ++ [mkRunningTransaction md],
        write_batch := wb ++
          [( AppendTransactionKeyPrefix md.transaction_id, data)],
        decode_dfatal := false, dcheck_ok := true }) = _
  rw [habs]

/-- C8: `Add` is idempotent for identical metadata — the second `Add` of
the same decodable message leaves exactly one entry for the id, enqueues
the `{encode(id), metadata_wire}` record into the write batch only on the
first (inserting) call, and both calls pass the metadata `DCHECK`;
re-adding an id with different metadata trips the `DCHECK` (a hard bug)
and changes nothing. -/
theorem Add_idempotent :
    (∀ (ts : List RunningTransaction)
        (wb : List (List Nat × TransactionMetadataPB))
        (data : TransactionMetadataPB) (md : TransactionMetadata),
        TransactionMetadata.FromPB data = .ok md →
        findTxn ts md.transaction_id = none →
        countTxn (TransactionParticipant.Add
            (TransactionParticipant.Add ts wb data).transactions
            (TransactionParticipant.Add ts wb data).write_batch
            data).transactions md.transaction_id = 1 ∧
        (TransactionParticipant.Add ts wb data).write_batch =
          wb ++ [( AppendTransactionKeyPrefix md.transaction_id, data)] ∧
        (TransactionParticipant.Add
            (TransactionParticipant.Add ts wb data).transactions
            (TransactionParticipant.Add ts wb data).write_batch
            data).write_batch =
          (TransactionParticipant.Add ts wb data).write_batch ∧
        (TransactionParticipant.Add
            (TransactionParticipant.Add ts wb data).transactions
            (TransactionParticipant.Add ts wb data).write_batch
            data).transactions =
          (TransactionParticipant.Add ts wb data).transactions ∧
        (TransactionParticipant.Add ts wb data).dcheck_ok = true ∧
        (TransactionParticipant.Add
            (TransactionParticipant.Add ts wb data).transactions
            (TransactionParticipant.Add ts wb data).write_batch
            data).dcheck_ok = true) ∧
    (∀ (ts : List RunningTransaction)
        (wb : List (List Nat × TransactionMetadataPB))
        (data : TransactionMetadataPB) (md : TransactionMetadata)
        (rt0 : RunningTransaction),
        TransactionMetadata.FromPB data = .ok md →
        findTxn ts md.transaction_id = some rt0 →
        rt0.metadata ≠ md →
        (TransactionParticipant.Add ts wb data).dcheck_ok = false ∧
        (TransactionParticipant.Add ts wb data).transactions = ts ∧
        (TransactionParticipant.Add ts wb data).write_batch = wb) := by
  constructor
  · intro ts wb data md hdec habs
    have h1 := Add_absent ts wb data md hdec habs
    have hself : ((mkRunningTransaction md).metadata.transaction_id ==
        md.transaction_id) = true := beq_self_eq_true md.transaction_id
    have hfind2 : findTxn (ts ++ [mkRunningTransaction md])
        md.transaction_id = some (mkRunningTransaction md) := by
      rw [findTxn_append_of_none ts [mkRunningTransaction md]
        md.transaction_id habs]
      exact List.find?_cons_of_pos [] hself
    have h2 := Add_present (ts ++ [mkRunningTransaction md])
      (wb ++ [( AppendTransactionKeyPrefix md.transaction_id, data)]) data md
      (mkRunningTransaction md) hdec hfind2
    rw [h1]
    dsimp only
    rw [h2]
    dsimp only
    refine ⟨?_, rfl, rfl, rfl, rfl, beq_self_eq_true md⟩
    show (List.filter (fun x => x.metadata.transaction_id == md.transaction_id)
      (ts ++ [mkRunningTransaction md])).length = 1
    rw [List.filter_append, List.length_append]
    have hz : (List.filter (fun x : RunningTransaction =>
        x.metadata.transaction_id == md.transaction_id) ts).length = 0 :=
      countTxn_zero_of_none ts md.transaction_id habs
    rw [hz, List.filter_cons, if_pos hself]
    rfl
  · intro ts wb data md rt0 hdec hfound hne
    rw [Add_present ts wb data md rt0 hdec hfound]
    refine ⟨?_, rfl, rfl⟩
    dsimp only
    exact beq_eq_false_iff_ne.mpr hne

/-- Witness for C8: adding `msgGood` twice to an empty table yields one
entry and a single write-batch record. -/
theorem Add_idempotent_witness :
    countTxn (TransactionParticipant.Add
        (TransactionParticipant.Add [] [] msgGood).transactions
        (TransactionParticipant.Add [] [] msgGood).write_batch
        msgGood).transactions mdW.transaction_id = 1 :=
  (Add_idempotent.1 [] [] msgGood mdW (by rfl) (by rfl)).1

/-- C10: `LocalCommitTime` consults only the in-memory table — for an id
persisted in the store but absent from the table it returns
`kInvalidHybridTime` without loading anything — whereas `Metadata` on the
same state lazily loads the stored record, inserts it into the table and
returns the stored metadata. -/
theorem LocalCommitTime_memory_only (db : List (List Nat × StoredValue))
    (ts : List RunningTransaction) (id : TransactionId)
    (msg : TransactionMetadataPB) (md : TransactionMetadata)
    (h1 : findTxn ts id = none)
    (h2 : dbLookup db ( AppendTransactionKeyPrefix id) = some (.pb msg))
    (h3 : TransactionMetadata.FromPB msg = .ok md) :
    TransactionParticipant.LocalCommitTime ts id = HybridTime.invalid ∧
    (TransactionParticipant.Metadata db ts id).2 = some md ∧
    (TransactionParticipant.Metadata db ts id).1 =
      ts ++ [mkRunningTransaction md] := by
  refine ⟨?_, ?_, ?_⟩
  · simp [TransactionParticipant.LocalCommitTime, h1]
  · simp [TransactionParticipant.Metadata, TransactionParticipant.FindOrLoad,
          h1, h2, h3, mkRunningTransaction]
  · simp [TransactionParticipant.Metadata, TransactionParticipant.FindOrLoad,
          h1, h2, h3]

/-- Witness for C10: with `idB` persisted in `dbB` but absent from `tsA`,
`LocalCommitTime` answers `kInvalid` while `Metadata` loads `mdB`. -/
theorem LocalCommitTime_memory_only_witness :
    TransactionParticipant.LocalCommitTime tsA idB = HybridTime.invalid ∧
    (TransactionParticipant.Metadata dbB tsA idB).2 = some mdB ∧
    (TransactionParticipant.Metadata dbB tsA idB).1 =
      tsA ++ [mkRunningTransaction mdB] :=
  LocalCommitTime_memory_only dbB tsA idB msgB mdB (by rfl) (by rfl) (by rfl)

end YbTablet
